import Mathlib

/-!
Verification development for the multi-source slide text-detection fusion and
placement engine (src/lib of the powerpoint-ocr repository).

The TypeScript code is shallowly embedded: JavaScript numbers are modelled as
exact rationals (ℚ), optional numeric fields that the code reads through
`|| 0` are modelled as always-present rationals (on present values `|| 0` is
the identity), and external asynchronous calls (detector services, OCR
services) are passed in as explicit data or function parameters.  Log output
and wall-clock timing fields are omitted; warning-message strings are kept as
constant strings (the interpolated numeric payload of each message is
irrelevant to every property proved here).
-/

namespace PowerPointOCR

/-- Axis-aligned rectangle, as in detection-merger.ts (`BoundingBox`). -/
structure BoundingBox where
  x : ℚ
  y : ℚ
  width : ℚ
  height : ℚ
deriving Repr, DecidableEq, Inhabited

/-- Text element carried through the pipeline (src/types: `DetectedTextElement`).
Only the fields the fusion/placement engine reads are kept. -/
structure DetectedTextElement where
  content : String
  position_x : ℚ
  position_y : ℚ
  width : ℚ
  height : ℚ
  font_family : String
  font_size : ℚ
  font_color : String
  is_bold : Bool
  is_italic : Bool
  is_underline : Bool
  align : String
  confidence_score : ℚ
deriving Repr, DecidableEq, Inhabited

/-- The pixel-space bounding box of a text element (the record literal built at
each `calculateIoU` call site in detection-merger.ts). -/
def elemBox (e : DetectedTextElement) : BoundingBox :=
  { x := e.position_x, y := e.position_y, width := e.width, height := e.height }

/-- detection-merger.ts `calculateIoU`. -/
def calculateIoU (box1 box2 : BoundingBox) : ℚ :=
  let x1 := max box1.x box2.x
  let y1 := max box1.y box2.y
  let x2 := min (box1.x + box1.width) (box2.x + box2.width)
  let y2 := min (box1.y + box1.height) (box2.y + box2.height)
  if x2 ≤ x1 ∨ y2 ≤ y1 then 0
  else
    let intersectionArea := (x2 - x1) * (y2 - y1)
    let box1Area := box1.width * box1.height
    let box2Area := box2.width * box2.height
    let unionArea := box1Area + box2Area - intersectionArea
    if unionArea = 0 then 0 else intersectionArea / unionArea

/-- coordinate-validator.ts `SlideDimensions`. -/
structure SlideDimensions where
  width : ℚ
  height : ℚ
deriving Repr, DecidableEq

/-- coordinate-validator.ts `STANDARD_SLIDE` (10 in × 5.625 in, 16:9). -/
def STANDARD_SLIDE : SlideDimensions := { width := 10, height := 5.625 }

/-- coordinate-validator.ts `clampToSlideBounds`. -/
def clampToSlideBounds (x y width height : ℚ) : BoundingBox :=
  let clampedX := max 0 (min x STANDARD_SLIDE.width)
  let clampedY := max 0 (min y STANDARD_SLIDE.height)
  let maxWidth := STANDARD_SLIDE.width - clampedX
  let maxHeight := STANDARD_SLIDE.height - clampedY
  let clampedWidth := max 0.1 (min width maxWidth)
  let clampedHeight := max 0.1 (min height maxHeight)
  { x := clampedX, y := clampedY, width := clampedWidth, height := clampedHeight }

section IoUFacts

/-- `calculateIoU` with its let-bindings zeta-reduced. -/
lemma calculateIoU_def (a b : BoundingBox) :
    calculateIoU a b =
      if min (a.x + a.width) (b.x + b.width) ≤ max a.x b.x ∨
          min (a.y + a.height) (b.y + b.height) ≤ max a.y b.y then 0
      else
        if a.width * a.height + b.width * b.height -
            (min (a.x + a.width) (b.x + b.width) - max a.x b.x) *
            (min (a.y + a.height) (b.y + b.height) - max a.y b.y) = 0 then 0
        else
          (min (a.x + a.width) (b.x + b.width) - max a.x b.x) *
            (min (a.y + a.height) (b.y + b.height) - max a.y b.y) /
          (a.width * a.height + b.width * b.height -
            (min (a.x + a.width) (b.x + b.width) - max a.x b.x) *
            (min (a.y + a.height) (b.y + b.height) - max a.y b.y)) := rfl

/-- Whenever the overlap guard passes, the intersection area is positive and
bounded by each rectangle's area. -/
lemma calculateIoU_pos_case (a b : BoundingBox)
    (hx : max a.x b.x < min (a.x + a.width) (b.x + b.width))
    (hy : max a.y b.y < min (a.y + a.height) (b.y + b.height)) :
    0 < (min (a.x + a.width) (b.x + b.width) - max a.x b.x) *
        (min (a.y + a.height) (b.y + b.height) - max a.y b.y) ∧
    (min (a.x + a.width) (b.x + b.width) - max a.x b.x) *
        (min (a.y + a.height) (b.y + b.height) - max a.y b.y) ≤ a.width * a.height ∧
    (min (a.x + a.width) (b.x + b.width) - max a.x b.x) *
        (min (a.y + a.height) (b.y + b.height) - max a.y b.y) ≤ b.width * b.height := by
  have hax : min (a.x + a.width) (b.x + b.width) ≤ a.x + a.width := min_le_left _ _
  have hbx : min (a.x + a.width) (b.x + b.width) ≤ b.x + b.width := min_le_right _ _
  have hax2 : a.x ≤ max a.x b.x := le_max_left _ _
  have hbx2 : b.x ≤ max a.x b.x := le_max_right _ _
  have hay : min (a.y + a.height) (b.y + b.height) ≤ a.y + a.height := min_le_left _ _
  have hby : min (a.y + a.height) (b.y + b.height) ≤ b.y + b.height := min_le_right _ _
  have hay2 : a.y ≤ max a.y b.y := le_max_left _ _
  have hby2 : b.y ≤ max a.y b.y := le_max_right _ _
  refine ⟨mul_pos (by linarith) (by linarith), ?_, ?_⟩
  · exact mul_le_mul (by linarith) (by linarith) (by linarith) (by linarith)
  · exact mul_le_mul (by linarith) (by linarith) (by linarith) (by linarith)

end IoUFacts

/-- Claim C6: `calculateIoU` always lies in [0,1]; it returns 0 for
non-overlapping rectangles and when the computed union area is 0; it returns 1
on identical rectangles of positive area; and it is symmetric. -/
theorem calculateIoU_correct (a b : BoundingBox) :
    (0 ≤ calculateIoU a b ∧ calculateIoU a b ≤ 1)
    ∧ (min (a.x + a.width) (b.x + b.width) ≤ max a.x b.x ∨
        min (a.y + a.height) (b.y + b.height) ≤ max a.y b.y →
        calculateIoU a b = 0)
    ∧ (a.width * a.height + b.width * b.height -
        (min (a.x + a.width) (b.x + b.width) - max a.x b.x) *
        (min (a.y + a.height) (b.y + b.height) - max a.y b.y) = 0 →
        calculateIoU a b = 0)
    ∧ (a = b → 0 < a.width → 0 < a.height → calculateIoU a b = 1)
    ∧ calculateIoU a b = calculateIoU b a := by
  refine ⟨?_, ?_, ?_, ?_, ?_⟩
  · by_cases hg : min (a.x + a.width) (b.x + b.width) ≤ max a.x b.x ∨
        min (a.y + a.height) (b.y + b.height) ≤ max a.y b.y
    · rw [calculateIoU_def, if_pos hg]; norm_num
    · push_neg at hg
      obtain ⟨hx, hy⟩ := hg
      obtain ⟨hpos, hba, hbb⟩ := calculateIoU_pos_case a b hx hy
      rw [calculateIoU_def, if_neg (by push_neg; exact ⟨hx, hy⟩)]
      by_cases hU : a.width * a.height + b.width * b.height -
          (min (a.x + a.width) (b.x + b.width) - max a.x b.x) *
          (min (a.y + a.height) (b.y + b.height) - max a.y b.y) = 0
      · rw [if_pos hU]; norm_num
      · rw [if_neg hU]
        have hU0 : 0 < a.width * a.height + b.width * b.height -
            (min (a.x + a.width) (b.x + b.width) - max a.x b.x) *
            (min (a.y + a.height) (b.y + b.height) - max a.y b.y) := by linarith
        constructor
        · positivity
        · rw [div_le_one hU0]; linarith
  · intro hg
    rw [calculateIoU_def, if_pos hg]
  · intro hU
    by_cases hg : min (a.x + a.width) (b.x + b.width) ≤ max a.x b.x ∨
        min (a.y + a.height) (b.y + b.height) ≤ max a.y b.y
    · rw [calculateIoU_def, if_pos hg]
    · rw [calculateIoU_def, if_neg hg, if_pos hU]
  · rintro rfl hw hh
    have hguard : ¬(min (a.x + a.width) (a.x + a.width) ≤ max a.x a.x ∨
        min (a.y + a.height) (a.y + a.height) ≤ max a.y a.y) := by
      rw [min_self, min_self, max_self, max_self]
      push_neg
      constructor <;> linarith
    have hI : (min (a.x + a.width) (a.x + a.width) - max a.x a.x) *
        (min (a.y + a.height) (a.y + a.height) - max a.y a.y) = a.width * a.height := by
      rw [min_self, min_self, max_self, max_self]; ring
    have hA : 0 < a.width * a.height := mul_pos hw hh
    rw [calculateIoU_def, if_neg hguard, hI,
      if_neg (show ¬(a.width * a.height + a.width * a.height - a.width * a.height = 0) by
        intro h; linarith),
      show a.width * a.height + a.width * a.height - a.width * a.height =
        a.width * a.height by ring]
    exact div_self (ne_of_gt hA)
  · rw [calculateIoU_def a b, calculateIoU_def b a,
      max_comm b.x a.x, max_comm b.y a.y,
      min_comm (b.x + b.width) (a.x + a.width),
      min_comm (b.y + b.height) (a.y + a.height),
      add_comm (b.width * b.height) (a.width * a.height)]

/-- Witness for C6: concrete evaluations through `calculateIoU_correct`. -/
theorem calculateIoU_correct_witness :
    calculateIoU ⟨0, 0, 1, 1⟩ ⟨3, 3, 1, 1⟩ = 0
    ∧ calculateIoU ⟨0, 0, 2, 1⟩ ⟨0, 0, 2, 1⟩ = 1
    ∧ calculateIoU ⟨0, 0, 0, 5⟩ ⟨0, 0, 0, 5⟩ = 0 :=
  ⟨(calculateIoU_correct ⟨0, 0, 1, 1⟩ ⟨3, 3, 1, 1⟩).2.1 (by norm_num),
   (calculateIoU_correct ⟨0, 0, 2, 1⟩ ⟨0, 0, 2, 1⟩).2.2.2.1 rfl (by norm_num) (by norm_num),
   (calculateIoU_correct ⟨0, 0, 0, 5⟩ ⟨0, 0, 0, 5⟩).2.2.1 (by norm_num)⟩

section ClampFacts

/-- One-dimensional clamp-then-floor step used for widths/heights: applying it
to its own output with the same available extent is the identity. -/
lemma clamp_dim_idem (w M : ℚ) :
    max 0.1 (min (max 0.1 (min w M)) M) = max 0.1 (min w M) := by
  rcases le_total 0.1 (min w M) with h | h
  · have h1 : max 0.1 (min w M) = min w M := max_eq_right h
    rw [h1, min_eq_left (min_le_right w M), h1]
  · have h1 : max 0.1 (min w M) = 0.1 := max_eq_left h
    rw [h1]
    rcases le_total (0.1 : ℚ) M with hM | hM
    · rw [min_eq_left hM, max_self]
    · rw [min_eq_right hM, max_eq_left hM]

end ClampFacts

/-- Claim C7: `clampToSlideBounds` is idempotent on every input rectangle,
including rectangles with negative origin, non-positive extents, or extents
past the canvas. -/
theorem clampToSlideBounds_idempotent (x y width height : ℚ) :
    clampToSlideBounds (clampToSlideBounds x y width height).x
      (clampToSlideBounds x y width height).y
      (clampToSlideBounds x y width height).width
      (clampToSlideBounds x y width height).height =
    clampToSlideBounds x y width height := by
  unfold clampToSlideBounds
  simp only [STANDARD_SLIDE]
  have hx : max 0 (min (max 0 (min x 10)) 10) = max 0 (min x 10) := by
    have h1 : max 0 (min x 10) ≤ 10 := max_le (by norm_num) (min_le_right _ _)
    rw [min_eq_left h1, max_eq_right (le_max_left _ _)]
  have hy : max 0 (min (max 0 (min y (5.625 : ℚ))) 5.625) = max 0 (min y 5.625) := by
    have h1 : max 0 (min y (5.625 : ℚ)) ≤ 5.625 := max_le (by norm_num) (min_le_right _ _)
    rw [min_eq_left h1, max_eq_right (le_max_left _ _)]
  simp only [hx, hy]
  congr 1
  · exact clamp_dim_idem width (10 - max 0 (min x 10))
  · exact clamp_dim_idem height (5.625 - max 0 (min y (5.625 : ℚ)))

/-- layout-detector.ts `LayoutRegion` (the classification tag and shape tag are
kept as strings). -/
structure LayoutRegion where
  type : String
  x : ℚ
  y : ℚ
  width : ℚ
  height : ℚ
  confidence : ℚ
  contains_text : Bool
  background_color : Option String
  border_color : Option String
  shape_type : String
deriving Repr, DecidableEq, Inhabited

/-- Result record of layout-placement.ts `validateLayoutPlacement` and
coordinate-validator.ts validators. -/
structure ValidationResult where
  isValid : Bool
  warnings : List String
deriving Repr, DecidableEq

/-- The warnings layout-placement.ts `validateLayoutPlacement` pushes for one
element (message text kept constant; the interpolated numbers are irrelevant). -/
def elementWarnings (element : DetectedTextElement) : List String :=
  (if element.position_x < 0 ∨ element.position_x > 10 then
    ["X position is out of bounds"] else []) ++
  (if element.position_y < 0 ∨ element.position_y > 5.625 then
    ["Y position is out of bounds"] else []) ++
  (if element.width ≤ 0 ∨ element.width > 10 then
    ["Width is invalid"] else []) ++
  (if element.height ≤ 0 ∨ element.height > 5.625 then
    ["Height is invalid"] else []) ++
  (if element.position_x + element.width > 10.1 then
    ["Extends beyond right edge of slide"] else []) ++
  (if element.position_y + element.height > 5.725 then
    ["Extends beyond bottom edge of slide"] else [])

/-- layout-placement.ts `validateLayoutPlacement` (the `regions` parameter is
unused by the source body as well). -/
def validateLayoutPlacement (textElements : List DetectedTextElement)
    (regions : List LayoutRegion) : ValidationResult :=
  let warnings := textElements.foldl (fun acc element => acc ++ elementWarnings element) []
  { isValid := warnings.length == 0, warnings := warnings }

section ClampBoundsFacts

/-- Facts about one axis of `clampToSlideBounds`: origin clamped into [0, L],
extent at least the minimum m, extent at most L, and the far edge within L + m
(within L whenever the minimum-size floor has at least m of room). -/
lemma clamp_axis_facts (x width L m : ℚ) (hL : 0 < L) (hm : 0 < m) (hmL : m ≤ L) :
    0 ≤ max 0 (min x L) ∧ max 0 (min x L) ≤ L ∧
    m ≤ max m (min width (L - max 0 (min x L))) ∧
    max m (min width (L - max 0 (min x L))) ≤ L ∧
    max 0 (min x L) + max m (min width (L - max 0 (min x L))) ≤ L + m ∧
    (m ≤ L - max 0 (min x L) →
      max 0 (min x L) + max m (min width (L - max 0 (min x L))) ≤ L) := by
  have h0 : 0 ≤ max 0 (min x L) := le_max_left _ _
  have h1 : max 0 (min x L) ≤ L := max_le (le_of_lt hL) (min_le_right _ _)
  have h2 : m ≤ max m (min width (L - max 0 (min x L))) := le_max_left _ _
  have hminM : min width (L - max 0 (min x L)) ≤ L - max 0 (min x L) := min_le_right _ _
  have h3 : max m (min width (L - max 0 (min x L))) ≤ L :=
    max_le hmL (le_trans hminM (by linarith))
  refine ⟨h0, h1, h2, h3, ?_, ?_⟩
  · rcases le_total (min width (L - max 0 (min x L))) m with hc | hc
    · rw [max_eq_left hc]; linarith
    · rw [max_eq_right hc]; linarith
  · intro hroom
    rcases le_total (min width (L - max 0 (min x L))) m with hc | hc
    · rw [max_eq_left hc]; linarith
    · rw [max_eq_right hc]; linarith

end ClampBoundsFacts

/-- Claim C1 (amended): a clamped rectangle always has `0 ≤ x ≤ 10`,
`0 ≤ y ≤ 5.625` and positive extents (at least the 0.1 minimum), but its far
edges are only bounded by `canvas + 0.1`: `x + width ≤ 10.1` and
`y + height ≤ 5.725` — exactly the slack `validateLayoutPlacement` accepts
(every clamped rectangle passes validation).  The unamended bound
`x + width ≤ 10` holds whenever the 0.1 minimum size has room
(`0.1 ≤ 10 - x`), and analogously for y/height. -/
theorem clampToSlideBounds_bounds (x y width height : ℚ) (regions : List LayoutRegion) :
    (0 ≤ (clampToSlideBounds x y width height).x ∧
      (clampToSlideBounds x y width height).x ≤ 10 ∧
      0 ≤ (clampToSlideBounds x y width height).y ∧
      (clampToSlideBounds x y width height).y ≤ 5.625)
    ∧ (0.1 ≤ (clampToSlideBounds x y width height).width ∧
        0.1 ≤ (clampToSlideBounds x y width height).height)
    ∧ ((clampToSlideBounds x y width height).x +
        (clampToSlideBounds x y width height).width ≤ 10.1 ∧
       (clampToSlideBounds x y width height).y +
        (clampToSlideBounds x y width height).height ≤ 5.725)
    ∧ (0.1 ≤ 10 - (clampToSlideBounds x y width height).x →
        (clampToSlideBounds x y width height).x +
          (clampToSlideBounds x y width height).width ≤ 10)
    ∧ (0.1 ≤ 5.625 - (clampToSlideBounds x y width height).y →
        (clampToSlideBounds x y width height).y +
          (clampToSlideBounds x y width height).height ≤ 5.625)
    ∧ (validateLayoutPlacement
        [{ (default : DetectedTextElement) with
            position_x := (clampToSlideBounds x y width height).x,
            position_y := (clampToSlideBounds x y width height).y,
            width := (clampToSlideBounds x y width height).width,
            height := (clampToSlideBounds x y width height).height }]
        regions).isValid = true := by
  have hdx : (clampToSlideBounds x y width height).x = max 0 (min x 10) := rfl
  have hdy : (clampToSlideBounds x y width height).y = max 0 (min y 5.625) := rfl
  have hdw : (clampToSlideBounds x y width height).width =
      max 0.1 (min width (10 - max 0 (min x 10))) := rfl
  have hdh : (clampToSlideBounds x y width height).height =
      max 0.1 (min height (5.625 - max 0 (min y 5.625))) := rfl
  obtain ⟨hx0, hx1, hw0, hw1, hxw, hxw10⟩ :=
    clamp_axis_facts x width 10 0.1 (by norm_num) (by norm_num) (by norm_num)
  obtain ⟨hy0, hy1, hh0, hh1, hyh, hyh5⟩ :=
    clamp_axis_facts y height 5.625 0.1 (by norm_num) (by norm_num) (by norm_num)
  rw [hdx, hdy, hdw, hdh]
  refine ⟨⟨hx0, hx1, hy0, hy1⟩, ⟨hw0, hh0⟩, ⟨by linarith, by linarith⟩,
    hxw10, hyh5, ?_⟩
  unfold validateLayoutPlacement
  simp only [List.foldl, List.nil_append]
  have hwarn : elementWarnings
      { (default : DetectedTextElement) with
          position_x := max 0 (min x 10),
          position_y := max 0 (min y 5.625),
          width := max 0.1 (min width (10 - max 0 (min x 10))),
          height := max 0.1 (min height (5.625 - max 0 (min y 5.625))) } = [] := by
    unfold elementWarnings
    rw [if_neg (by push_neg; constructor <;> linarith),
      if_neg (by push_neg; constructor <;> linarith),
      if_neg (by push_neg; constructor <;> linarith),
      if_neg (by push_neg; constructor <;> linarith),
      if_neg (by linarith), if_neg (by linarith)]
    rfl
  rw [hwarn]
  rfl

/-- Witness for C1 (amended): a concrete in-bounds rectangle keeps `0 ≤ x` and,
having room for the minimum size, satisfies `x + width ≤ 10`. -/
theorem clampToSlideBounds_bounds_witness :
    0 ≤ (clampToSlideBounds 2 1 3 2).x ∧
    (clampToSlideBounds 2 1 3 2).x + (clampToSlideBounds 2 1 3 2).width ≤ 10 := by
  have h := clampToSlideBounds_bounds 2 1 3 2 []
  exact ⟨h.1.1, h.2.2.2.1
    (by norm_num [clampToSlideBounds, STANDARD_SLIDE, min_def, max_def])⟩

/-- Counterexample to C1 as stated: the clamped rectangle for input
(10, 0, 1, 1) has x = 10 and width = 0.1, so x + width = 10.1, which exceeds
the 10-unit canvas width by 0.1 — far beyond floating-point tolerance. -/
theorem clampToSlideBounds_exceeds_canvas :
    clampToSlideBounds 10 0 1 1 = { x := 10, y := 0, width := 0.1, height := 1 } ∧
    (clampToSlideBounds 10 0 1 1).x + (clampToSlideBounds 10 0 1 1).width = 10.1 ∧
    ¬((clampToSlideBounds 10 0 1 1).x + (clampToSlideBounds 10 0 1 1).width ≤ 10) := by
  have h : clampToSlideBounds 10 0 1 1 = { x := 10, y := 0, width := 0.1, height := 1 } := by
    unfold clampToSlideBounds STANDARD_SLIDE
    simp only [min_def, max_def]
    norm_num
  refine ⟨h, ?_, ?_⟩ <;> rw [h] <;> norm_num

/-! ### Cross-source merge engine (detection-merger.ts `mergeDetections`) -/

/-- Result record of detection-merger.ts `mergeDetections`. -/
structure MergeResult where
  mergedElements : List DetectedTextElement
  claudeOnlyCount : ℕ
  craftOnlyCount : ℕ
  overlapCount : ℕ
  mergedCount : ℕ
deriving Repr, DecidableEq

/-- The body of the inner `if (iou >= overlapThreshold)` update in
`mergeDetections`: replace the running best candidate when the new IoU meets
the threshold and strictly beats the current best. -/
def betterCandidate (i : ℕ) (iou overlapThreshold : ℚ) (best : Option (ℕ × ℚ)) :
    Option (ℕ × ℚ) :=
  if overlapThreshold ≤ iou then
    match best with
    | none => some (i, iou)
    | some b => if b.2 < iou then some (i, iou) else best
  else best

/-- Inner scan of `mergeDetections`: walk the indexed craft elements keeping the
best (highest-IoU, first on ties) unmatched candidate with IoU at or above the
threshold. -/
def findBestMatchAux (claudeElement : DetectedTextElement)
    (pairs : List (ℕ × DetectedTextElement)) (craftMatched : Finset ℕ)
    (overlapThreshold : ℚ) (best : Option (ℕ × ℚ)) : Option (ℕ × ℚ) :=
  match pairs with
  | [] => best
  | (i, c) :: rest =>
    if i ∈ craftMatched then
      findBestMatchAux claudeElement rest craftMatched overlapThreshold best
    else
      findBestMatchAux claudeElement rest craftMatched overlapThreshold
        (betterCandidate i (calculateIoU (elemBox claudeElement) (elemBox c))
          overlapThreshold best)

/-- The `bestMatch` computed by the inner `for` loop of `mergeDetections` for
one claude element. -/
def findBestMatch (claudeElement : DetectedTextElement)
    (craftElements : List DetectedTextElement) (craftMatched : Finset ℕ)
    (overlapThreshold : ℚ) : Option (ℕ × ℚ) :=
  findBestMatchAux claudeElement craftElements.enum craftMatched overlapThreshold none

/-- The merged element `mergeDetections` pushes on a match: averaged geometry,
text/style spread from the claude element, confidence the max of the two. -/
def fuseElements (claudeElement craftElement : DetectedTextElement) :
    DetectedTextElement :=
  { claudeElement with
    position_x := (claudeElement.position_x + craftElement.position_x) / 2
    position_y := (claudeElement.position_y + craftElement.position_y) / 2
    width := (claudeElement.width + craftElement.width) / 2
    height := (claudeElement.height + craftElement.height) / 2
    confidence_score := max claudeElement.confidence_score craftElement.confidence_score }

/-- The main loop of `mergeDetections` over the claude elements, returning the
emitted elements, the set of matched craft indices, and `overlapCount`. -/
def mergeAux (claudeElements craftElements : List DetectedTextElement)
    (craftMatched : Finset ℕ) (overlapThreshold : ℚ) :
    List DetectedTextElement × Finset ℕ × ℕ :=
  match claudeElements with
  | [] => ([], craftMatched, 0)
  | claudeElement :: rest =>
    match findBestMatch claudeElement craftElements craftMatched overlapThreshold with
    | some (i, _) =>
      let r := mergeAux rest craftElements (insert i craftMatched) overlapThreshold
      (fuseElements claudeElement (craftElements.getD i default) :: r.1,
        r.2.1, r.2.2 + 1)
    | none =>
      let r := mergeAux rest craftElements craftMatched overlapThreshold
      (claudeElement :: r.1, r.2.1, r.2.2)

/-- detection-merger.ts `mergeDetections`: process every claude element against
the unmatched craft elements, then append every unmatched craft element. -/
def mergeDetections (claudeElements craftElements : List DetectedTextElement)
    (overlapThreshold : ℚ) : MergeResult :=
  let r := mergeAux claudeElements craftElements ∅ overlapThreshold
  let mergedElements := r.1 ++
    ((List.range craftElements.length).filter (fun i => i ∉ r.2.1)).map
      (fun i => craftElements.getD i default)
  { mergedElements := mergedElements
    claudeOnlyCount := claudeElements.length - r.2.2
    craftOnlyCount := craftElements.length - r.2.2
    overlapCount := r.2.2
    mergedCount := mergedElements.length }

section MergeFacts

/-- A candidate returned by `betterCandidate` is the propagated seed or the new
pair, the latter only when the threshold is met. -/
lemma betterCandidate_sound (i : ℕ) (iou thr : ℚ) (best : Option (ℕ × ℚ))
    (j : ℕ) (v : ℚ) (h : betterCandidate i iou thr best = some (j, v)) :
    best = some (j, v) ∨ (j = i ∧ v = iou ∧ thr ≤ iou) := by
  unfold betterCandidate at h
  by_cases hthr : thr ≤ iou
  · rw [if_pos hthr] at h
    rcases best with _ | b
    · simp only [Option.some.injEq, Prod.mk.injEq] at h
      exact Or.inr ⟨h.1.symm, h.2.symm, hthr⟩
    · dsimp only at h
      by_cases hlt : b.2 < iou
      · rw [if_pos hlt] at h
        simp only [Option.some.injEq, Prod.mk.injEq] at h
        exact Or.inr ⟨h.1.symm, h.2.symm, hthr⟩
      · rw [if_neg hlt] at h
        exact Or.inl h
  · rw [if_neg hthr] at h
    exact Or.inl h

/-- `betterCandidate` never loses a propagated candidate, and never lowers the
running best IoU. -/
lemma betterCandidate_mono (i : ℕ) (iou thr : ℚ) (best : Option (ℕ × ℚ))
    (b : ℕ × ℚ) (h : best = some b) :
    ∃ p, betterCandidate i iou thr best = some p ∧ b.2 ≤ p.2 := by
  subst h
  unfold betterCandidate
  by_cases hthr : thr ≤ iou
  · rw [if_pos hthr]
    dsimp only
    by_cases hlt : b.2 < iou
    · rw [if_pos hlt]; exact ⟨(i, iou), rfl, le_of_lt hlt⟩
    · rw [if_neg hlt]; exact ⟨b, rfl, le_refl _⟩
  · rw [if_neg hthr]; exact ⟨b, rfl, le_refl _⟩

/-- When the threshold is met, `betterCandidate` returns a candidate at least
as good as the offered IoU. -/
lemma betterCandidate_qualified (i : ℕ) (iou thr : ℚ) (best : Option (ℕ × ℚ))
    (hthr : thr ≤ iou) :
    ∃ p, betterCandidate i iou thr best = some p ∧ iou ≤ p.2 := by
  unfold betterCandidate
  rw [if_pos hthr]
  rcases best with _ | b
  · exact ⟨(i, iou), rfl, le_refl _⟩
  · dsimp only
    by_cases hlt : b.2 < iou
    · rw [if_pos hlt]; exact ⟨(i, iou), rfl, le_refl _⟩
    · rw [if_neg hlt]; exact ⟨b, rfl, le_of_not_lt hlt⟩

/-- Soundness of the inner scan: a returned candidate is either the propagated
seed or a pair of the scanned list that is unmatched and meets the threshold. -/
lemma findBestMatchAux_sound (a : DetectedTextElement)
    (pairs : List (ℕ × DetectedTextElement)) (m : Finset ℕ) (thr : ℚ)
    (best : Option (ℕ × ℚ)) (i : ℕ) (v : ℚ) :
    findBestMatchAux a pairs m thr best = some (i, v) →
    best = some (i, v) ∨
      ∃ c, (i, c) ∈ pairs ∧ i ∉ m ∧
        v = calculateIoU (elemBox a) (elemBox c) ∧ thr ≤ v := by
  induction pairs generalizing best with
  | nil => intro h; exact Or.inl h
  | cons p rest ih =>
    obtain ⟨j, c⟩ := p
    intro h
    rw [findBestMatchAux] at h
    by_cases hj : j ∈ m
    · rw [if_pos hj] at h
      rcases ih best h with h1 | ⟨c', hmem, hrest⟩
      · exact Or.inl h1
      · exact Or.inr ⟨c', List.mem_cons_of_mem _ hmem, hrest⟩
    · rw [if_neg hj] at h
      rcases ih _ h with h1 | ⟨c', hmem, hrest⟩
      · rcases betterCandidate_sound j _ thr best i v h1 with h2 | ⟨h2, h3, h4⟩
        · exact Or.inl h2
        · subst h2; subst h3
          exact Or.inr ⟨c, List.mem_cons_self _ _, hj, rfl, h4⟩
      · exact Or.inr ⟨c', List.mem_cons_of_mem _ hmem, hrest⟩

/-- The inner scan never loses a propagated candidate: starting from a `some`
seed, the result is `some` with an IoU at least the seed's. -/
lemma findBestMatchAux_mono (a : DetectedTextElement)
    (pairs : List (ℕ × DetectedTextElement)) (m : Finset ℕ) (thr : ℚ)
    (best : Option (ℕ × ℚ)) (b : ℕ × ℚ) :
    best = some b →
    ∃ p, findBestMatchAux a pairs m thr best = some p ∧ b.2 ≤ p.2 := by
  induction pairs generalizing best b with
  | nil => intro h; exact ⟨b, by rw [findBestMatchAux, h], le_refl _⟩
  | cons q rest ih =>
    obtain ⟨j, c⟩ := q
    intro h
    rw [findBestMatchAux]
    by_cases hj : j ∈ m
    · rw [if_pos hj]; exact ih best b h
    · rw [if_neg hj]
      obtain ⟨p1, hp1, hle1⟩ :=
        betterCandidate_mono j (calculateIoU (elemBox a) (elemBox c)) thr best b h
      obtain ⟨p2, hp2, hle2⟩ := ih _ p1 hp1
      exact ⟨p2, hp2, le_trans hle1 hle2⟩

/-- Any unmatched, threshold-qualified pair forces the inner scan to return a
candidate whose IoU is at least that pair's. -/
lemma findBestMatchAux_qualified (a : DetectedTextElement)
    (pairs : List (ℕ × DetectedTextElement)) (m : Finset ℕ) (thr : ℚ)
    (best : Option (ℕ × ℚ)) (j : ℕ) (c : DetectedTextElement) :
    (j, c) ∈ pairs → j ∉ m → thr ≤ calculateIoU (elemBox a) (elemBox c) →
    ∃ p, findBestMatchAux a pairs m thr best = some p ∧
      calculateIoU (elemBox a) (elemBox c) ≤ p.2 := by
  induction pairs generalizing best with
  | nil => intro h; exact absurd h (List.not_mem_nil _)
  | cons q rest ih =>
    obtain ⟨k, d⟩ := q
    intro hmem hjm hthr
    rw [findBestMatchAux]
    rcases List.mem_cons.mp hmem with heq | htail
    · obtain ⟨hk, hd⟩ := Prod.mk.injEq .. ▸ heq
      subst hk; subst hd
      rw [if_neg hjm]
      obtain ⟨p1, hp1, hle1⟩ :=
        betterCandidate_qualified j (calculateIoU (elemBox a) (elemBox c)) thr best hthr
      obtain ⟨p2, hp2, hle2⟩ := findBestMatchAux_mono a rest m thr _ p1 hp1
      exact ⟨p2, hp2, le_trans hle1 hle2⟩
    · by_cases hk : k ∈ m
      · rw [if_pos hk]; exact ih best htail hjm hthr
      · rw [if_neg hk]
        exact ih _ htail hjm hthr

/-- Soundness carried to `findBestMatch`: the returned index is a valid,
unmatched craft index whose IoU with the claude element is the returned value,
which meets the threshold and is maximal among unmatched qualified indices. -/
lemma findBestMatch_spec (a : DetectedTextElement)
    (bs : List DetectedTextElement) (m : Finset ℕ) (thr : ℚ) (i : ℕ) (v : ℚ)
    (h : findBestMatch a bs m thr = some (i, v)) :
    ∃ hi : i < bs.length,
      i ∉ m ∧ v = calculateIoU (elemBox a) (elemBox (bs.get ⟨i, hi⟩))
      ∧ thr ≤ v
      ∧ ∀ j (hj : j < bs.length), j ∉ m →
          thr ≤ calculateIoU (elemBox a) (elemBox (bs.get ⟨j, hj⟩)) →
          calculateIoU (elemBox a) (elemBox (bs.get ⟨j, hj⟩)) ≤ v := by
  rcases findBestMatchAux_sound a bs.enum m thr none i v h with h1 | ⟨c, hmem, him, hv, hthr⟩
  · exact absurd h1 (by simp)
  · have hget : bs.get? i = some c := by
      rw [List.get?_eq_getElem?]
      exact List.mem_enum_iff_getElem?.mp hmem
    obtain ⟨hi, hic⟩ := List.get?_eq_some.mp hget
    refine ⟨hi, him, ?_, hthr, ?_⟩
    · rw [show bs.get ⟨i, hi⟩ = c from hic]; exact hv
    · intro j hj hjm hjthr
      obtain ⟨p, hp, hple⟩ := findBestMatchAux_qualified a bs.enum m thr none j
        (bs.get ⟨j, hj⟩)
        (by
          apply List.mem_enum_iff_getElem?.mpr
          simp [List.getElem?_eq_getElem, hj, List.get_eq_getElem])
        hjm hjthr
      unfold findBestMatch at h
      rw [h] at hp
      obtain rfl : (i, v) = p := Option.some.inj hp
      exact hple

/-- Invariants of the main merge loop: one output element per claude element;
the matched set only grows, stays inside the craft index range, and its growth
equals `overlapCount`, which is bounded by the number of claude elements. -/
lemma mergeAux_invariants (as bs : List DetectedTextElement) (m : Finset ℕ) (thr : ℚ) :
    (mergeAux as bs m thr).1.length = as.length
    ∧ m ⊆ (mergeAux as bs m thr).2.1
    ∧ (mergeAux as bs m thr).2.1 ⊆ m ∪ Finset.range bs.length
    ∧ (mergeAux as bs m thr).2.1.card = m.card + (mergeAux as bs m thr).2.2
    ∧ (mergeAux as bs m thr).2.2 ≤ as.length := by
  induction as generalizing m with
  | nil =>
    refine ⟨rfl, Finset.Subset.refl m, Finset.subset_union_left, by simp [mergeAux],
      by simp [mergeAux]⟩
  | cons a rest ih =>
    rw [mergeAux]
    rcases hfind : findBestMatch a bs m thr with _ | ⟨i, v⟩
    · dsimp only
      obtain ⟨h1, h2, h3, h4, h5⟩ := ih m
      exact ⟨by simp [h1], h2, h3, h4, by simp only [List.length_cons]; omega⟩
    · dsimp only
      obtain ⟨hi, him, _, _, _⟩ := findBestMatch_spec a bs m thr i v hfind
      obtain ⟨h1, h2, h3, h4, h5⟩ := ih (insert i m)
      refine ⟨by simp [h1], ?_, ?_, ?_, by simp only [List.length_cons]; omega⟩
      · exact Finset.Subset.trans (Finset.subset_insert i m) h2
      · intro j hj
        have hj2 := h3 hj
        simp only [Finset.mem_union, Finset.mem_insert] at hj2 ⊢
        rcases hj2 with (rfl | hm) | hr
        · exact Or.inr (Finset.mem_range.mpr hi)
        · exact Or.inl hm
        · exact Or.inr hr
      · rw [h4, Finset.card_insert_of_not_mem him]
        omega

/-- `mergeDetections` with its let-bindings zeta-reduced. -/
lemma mergeDetections_eq (as bs : List DetectedTextElement) (thr : ℚ) :
    mergeDetections as bs thr =
      { mergedElements := (mergeAux as bs ∅ thr).1 ++
          ((List.range bs.length).filter (fun i => i ∉ (mergeAux as bs ∅ thr).2.1)).map
            (fun i => bs.getD i default)
        claudeOnlyCount := as.length - (mergeAux as bs ∅ thr).2.2
        craftOnlyCount := bs.length - (mergeAux as bs ∅ thr).2.2
        overlapCount := (mergeAux as bs ∅ thr).2.2
        mergedCount := ((mergeAux as bs ∅ thr).1 ++
          ((List.range bs.length).filter (fun i => i ∉ (mergeAux as bs ∅ thr).2.1)).map
            (fun i => bs.getD i default)).length } := rfl

/-- Counting the unmatched craft indices. -/
lemma length_filter_not_mem_range (n : ℕ) (F : Finset ℕ) (hF : F ⊆ Finset.range n) :
    ((List.range n).filter (fun i => decide (i ∉ F))).length = n - F.card := by
  have h1 : ((List.range n).filter (fun i => decide (i ∉ F))).length =
      ((Finset.range n).filter (fun i => i ∉ F)).card := by
    simp [Finset.card, Finset.filter, Finset.range, Multiset.range]
  have h2 : (Finset.range n).filter (fun i => i ∉ F) = Finset.range n \ F := by
    ext j; simp [Finset.mem_sdiff]
  rw [h1, h2, Finset.card_sdiff hF, Finset.card_range]

end MergeFacts

/-- Claim C2: when a claude element `a` matches craft index `i` (the unmatched
candidate of maximal IoU among those with IoU at or above the threshold), the
emitted merged element averages the geometry of `a` and `bs[i]`, takes its text
and every style field from `a`, takes the maximum of the two confidences, and
`i` is consumed: it is in the final matched set, and no element can be matched
to index `i` once `i` is in the matched set. -/
theorem mergeDetections_fusion_rule (a : DetectedTextElement)
    (rest bs : List DetectedTextElement) (m : Finset ℕ) (thr : ℚ) (i : ℕ) (v : ℚ)
    (hfind : findBestMatch a bs m thr = some (i, v)) :
    ∃ hi : i < bs.length,
      (mergeAux (a :: rest) bs m thr).1 =
        fuseElements a (bs.get ⟨i, hi⟩) :: (mergeAux rest bs (insert i m) thr).1
      ∧ (fuseElements a (bs.get ⟨i, hi⟩)).position_x =
          (a.position_x + (bs.get ⟨i, hi⟩).position_x) / 2
      ∧ (fuseElements a (bs.get ⟨i, hi⟩)).position_y =
          (a.position_y + (bs.get ⟨i, hi⟩).position_y) / 2
      ∧ (fuseElements a (bs.get ⟨i, hi⟩)).width = (a.width + (bs.get ⟨i, hi⟩).width) / 2
      ∧ (fuseElements a (bs.get ⟨i, hi⟩)).height = (a.height + (bs.get ⟨i, hi⟩).height) / 2
      ∧ (fuseElements a (bs.get ⟨i, hi⟩)).content = a.content
      ∧ (fuseElements a (bs.get ⟨i, hi⟩)).font_family = a.font_family
      ∧ (fuseElements a (bs.get ⟨i, hi⟩)).font_size = a.font_size
      ∧ (fuseElements a (bs.get ⟨i, hi⟩)).font_color = a.font_color
      ∧ (fuseElements a (bs.get ⟨i, hi⟩)).is_bold = a.is_bold
      ∧ (fuseElements a (bs.get ⟨i, hi⟩)).is_italic = a.is_italic
      ∧ (fuseElements a (bs.get ⟨i, hi⟩)).is_underline = a.is_underline
      ∧ (fuseElements a (bs.get ⟨i, hi⟩)).align = a.align
      ∧ (fuseElements a (bs.get ⟨i, hi⟩)).confidence_score =
          max a.confidence_score (bs.get ⟨i, hi⟩).confidence_score
      ∧ v = calculateIoU (elemBox a) (elemBox (bs.get ⟨i, hi⟩))
      ∧ thr ≤ v
      ∧ (∀ j (hj : j < bs.length), j ∉ m →
          thr ≤ calculateIoU (elemBox a) (elemBox (bs.get ⟨j, hj⟩)) →
          calculateIoU (elemBox a) (elemBox (bs.get ⟨j, hj⟩)) ≤ v)
      ∧ i ∈ (mergeAux rest bs (insert i m) thr).2.1
      ∧ (∀ (a2 : DetectedTextElement) (m2 : Finset ℕ), i ∈ m2 →
          ∀ w, findBestMatch a2 bs m2 thr ≠ some (i, w)) := by
  obtain ⟨hi, him, hv, hthr, hmax⟩ := findBestMatch_spec a bs m thr i v hfind
  refine ⟨hi, ?_, rfl, rfl, rfl, rfl, rfl, rfl, rfl, rfl, rfl, rfl, rfl, rfl, rfl,
    hv, hthr, hmax, ?_, ?_⟩
  · rw [mergeAux, hfind]
    dsimp only
    congr 2
    simp [List.getD, List.get?_eq_getElem?, List.getElem?_eq_getElem, hi,
      List.get_eq_getElem]
  · exact (mergeAux_invariants rest bs (insert i m) thr).2.1
      (Finset.mem_insert_self i m)
  · intro a2 m2 him2 w hw
    obtain ⟨_, him3, _, _, _⟩ := findBestMatch_spec a2 bs m2 thr i w hw
    exact him3 him2

/-- Concrete content-aware (A) element used by witnesses. -/
def sampleClaude : DetectedTextElement :=
  ⟨"Hello", 0, 0, 2, 2, "Arial", 14, "000000", false, false, false, "left", 80⟩

/-- Concrete geometry-only (B) element overlapping `sampleClaude` exactly. -/
def sampleCraft : DetectedTextElement :=
  ⟨"", 0, 0, 2, 2, "Courier", 12, "FFFFFF", true, false, false, "right", 90⟩

/-- Concrete geometry-only (B) element far away from `sampleClaude`. -/
def sampleFar : DetectedTextElement :=
  ⟨"far", 5, 5, 1, 1, "Arial", 12, "000000", false, false, false, "left", 70⟩

/-- Witness for C2: on the concrete one-on-one match, the merge loop emits the
fused element, whose confidence is the max of the two and whose text is the
claude element's. -/
theorem mergeDetections_fusion_rule_witness :
    (mergeAux [sampleClaude] [sampleCraft] ∅ (1/2)).1 =
      [fuseElements sampleClaude sampleCraft]
    ∧ (fuseElements sampleClaude sampleCraft).confidence_score = 90
    ∧ (fuseElements sampleClaude sampleCraft).content = "Hello" := by
  obtain ⟨hi, heq, hrest⟩ :=
    mergeDetections_fusion_rule sampleClaude [] [sampleCraft] ∅ (1/2) 0 1
      (by norm_num [findBestMatch, findBestMatchAux, betterCandidate, List.enum,
        List.enumFrom, calculateIoU, elemBox, sampleClaude, sampleCraft, min_def,
        max_def, Finset.not_mem_empty])
  refine ⟨?_, ?_, rfl⟩
  · rw [heq]; rfl
  · norm_num [fuseElements, sampleClaude, sampleCraft, max_def]

/-- Claim C3: merge conservation.  The output length is A-only + B-only +
matched (with A-only and B-only computed exactly as `|A| - matched` and
`|B| - matched`), the number of matches is at most `min |A| |B|`, and every
unmatched craft element appears in the output. -/
theorem mergeDetections_conservation (as bs : List DetectedTextElement) (thr : ℚ) :
    (mergeDetections as bs thr).mergedElements.length =
      (mergeDetections as bs thr).claudeOnlyCount +
      (mergeDetections as bs thr).craftOnlyCount +
      (mergeDetections as bs thr).overlapCount
    ∧ (mergeDetections as bs thr).claudeOnlyCount =
        as.length - (mergeDetections as bs thr).overlapCount
    ∧ (mergeDetections as bs thr).craftOnlyCount =
        bs.length - (mergeDetections as bs thr).overlapCount
    ∧ (mergeDetections as bs thr).overlapCount ≤ min as.length bs.length
    ∧ ∀ i (hi : i < bs.length), i ∉ (mergeAux as bs ∅ thr).2.1 →
        bs.get ⟨i, hi⟩ ∈ (mergeDetections as bs thr).mergedElements := by
  obtain ⟨h1, _, h3, h4, h5⟩ := mergeAux_invariants as bs ∅ thr
  have hrange : (mergeAux as bs ∅ thr).2.1 ⊆ Finset.range bs.length := by
    intro j hj
    have := h3 hj
    simpa using this
  have hcard : (mergeAux as bs ∅ thr).2.1.card = (mergeAux as bs ∅ thr).2.2 := by
    simpa using h4
  have hcnt_bs : (mergeAux as bs ∅ thr).2.2 ≤ bs.length := by
    rw [← hcard]
    exact le_trans (Finset.card_le_card hrange) (le_of_eq (Finset.card_range _))
  have hfilter : ((List.range bs.length).filter
      (fun i => decide (i ∉ (mergeAux as bs ∅ thr).2.1))).length =
      bs.length - (mergeAux as bs ∅ thr).2.2 := by
    rw [length_filter_not_mem_range bs.length _ hrange, hcard]
  rw [mergeDetections_eq]
  refine ⟨?_, rfl, rfl, ?_, ?_⟩
  · simp only [List.length_append, List.length_map, h1, hfilter]
    omega
  · simp only
    omega
  · intro i hi hnot
    simp only
    apply List.mem_append_right
    apply List.mem_map.mpr
    refine ⟨i, List.mem_filter.mpr ⟨List.mem_range.mpr hi, by simpa using hnot⟩, ?_⟩
    simp [List.getD, List.get?_eq_getElem?, List.getElem?_eq_getElem, hi,
      List.get_eq_getElem]

/-- Witness for C3: on a concrete non-overlapping pair, the unmatched craft
element appears in the merge output. -/
theorem mergeDetections_conservation_witness :
    sampleFar ∈ (mergeDetections [sampleClaude] [sampleFar] (1/2)).mergedElements :=
  (mergeDetections_conservation [sampleClaude] [sampleFar] (1/2)).2.2.2.2 0 (by norm_num)
    (by norm_num [mergeAux, findBestMatch, findBestMatchAux, betterCandidate,
      List.enum, List.enumFrom, calculateIoU, elemBox, sampleClaude, sampleFar,
      min_def, max_def, Finset.not_mem_empty])

/-! ### Intra-source deduplication (detection-merger.ts
`filterOverlappingDetections`, layout-detector.ts `deduplicateRegions`) -/

/-- One inner-loop step of `filterOverlappingDetections`: compare elements `i`
and `j`; when their IoU meets the threshold, remove the lower-confidence one
(the code keeps index `i` on confidence ties). -/
def dedupInnerStep (elements : List DetectedTextElement) (overlapThreshold : ℚ)
    (i : ℕ) (toRemove : Finset ℕ) (j : ℕ) : Finset ℕ :=
  if j ∈ toRemove then toRemove
  else
    let iou := calculateIoU (elemBox (elements.getD i default))
      (elemBox (elements.getD j default))
    if overlapThreshold ≤ iou then
      let keepIndex := if (elements.getD j default).confidence_score ≤
          (elements.getD i default).confidence_score then i else j
      let removeIndex := if keepIndex = i then j else i
      insert removeIndex toRemove
    else toRemove

/-- One outer-loop step of `filterOverlappingDetections`: skip a removed `i`,
otherwise scan every `j` from `i + 1` to the end. -/
def dedupOuterStep (elements : List DetectedTextElement) (overlapThreshold : ℚ)
    (toRemove : Finset ℕ) (i : ℕ) : Finset ℕ :=
  if i ∈ toRemove then toRemove
  else (List.range' (i + 1) (elements.length - (i + 1))).foldl
    (dedupInnerStep elements overlapThreshold i) toRemove

/-- The `toRemove` set built by `filterOverlappingDetections`. -/
def dedupToRemove (elements : List DetectedTextElement) (overlapThreshold : ℚ) :
    Finset ℕ :=
  (List.range elements.length).foldl (dedupOuterStep elements overlapThreshold) ∅

/-- detection-merger.ts `filterOverlappingDetections`: keep, in input order,
the elements whose index was not marked for removal. -/
def filterOverlappingDetections (elements : List DetectedTextElement)
    (overlapThreshold : ℚ) : List DetectedTextElement :=
  (elements.enum.filter
    (fun p => p.1 ∉ dedupToRemove elements overlapThreshold)).map Prod.snd

/-- layout-detector.ts `calculateRegionIoU` (the same arithmetic as
`calculateIoU`, over `LayoutRegion`). -/
def calculateRegionIoU (region1 region2 : LayoutRegion) : ℚ :=
  let x1 := max region1.x region2.x
  let y1 := max region1.y region2.y
  let x2 := min (region1.x + region1.width) (region2.x + region2.width)
  let y2 := min (region1.y + region1.height) (region2.y + region2.height)
  if x2 ≤ x1 ∨ y2 ≤ y1 then 0
  else
    let intersectionArea := (x2 - x1) * (y2 - y1)
    let region1Area := region1.width * region1.height
    let region2Area := region2.width * region2.height
    let unionArea := region1Area + region2Area - intersectionArea
    if unionArea = 0 then 0 else intersectionArea / unionArea

/-- One inner-loop step of layout-detector.ts `deduplicateRegions`: on IoU
strictly above 0.7, remove the smaller-area region (area ties keep index `i`);
confidence plays no role here. -/
def regionDedupInnerStep (regions : List LayoutRegion) (i : ℕ)
    (toRemove : Finset ℕ) (j : ℕ) : Finset ℕ :=
  if j ∈ toRemove then toRemove
  else
    let iou := calculateRegionIoU (regions.getD i default) (regions.getD j default)
    if 0.7 < iou then
      let largerRegion := if (regions.getD j default).width *
          (regions.getD j default).height ≤
          (regions.getD i default).width * (regions.getD i default).height
        then i else j
      let smallerRegion := if largerRegion = i then j else i
      insert smallerRegion toRemove
    else toRemove

/-- One outer-loop step of `deduplicateRegions`. -/
def regionDedupOuterStep (regions : List LayoutRegion) (toRemove : Finset ℕ)
    (i : ℕ) : Finset ℕ :=
  if i ∈ toRemove then toRemove
  else (List.range' (i + 1) (regions.length - (i + 1))).foldl
    (regionDedupInnerStep regions i) toRemove

/-- layout-detector.ts `deduplicateRegions`. -/
def deduplicateRegions (regions : List LayoutRegion) : List LayoutRegion :=
  if regions.length = 0 then []
  else
    let toRemove :=
      (List.range regions.length).foldl (regionDedupOuterStep regions) ∅
    (regions.enum.filter (fun p => p.1 ∉ toRemove)).map Prod.snd

section DedupFacts

/-- Folding a step that only grows the set keeps the seed inside. -/
lemma subset_foldl {α : Type} (f : Finset ℕ → α → Finset ℕ)
    (hf : ∀ R x, R ⊆ f R x) (l : List α) (R : Finset ℕ) : R ⊆ l.foldl f R := by
  induction l generalizing R with
  | nil => exact Finset.Subset.refl R
  | cons x rest ih => exact Finset.Subset.trans (hf R x) (ih (f R x))

/-- `dedupInnerStep` only grows the removal set. -/
lemma dedupInnerStep_subset (elements : List DetectedTextElement) (t : ℚ) (i : ℕ)
    (R : Finset ℕ) (j : ℕ) : R ⊆ dedupInnerStep elements t i R j := by
  unfold dedupInnerStep
  by_cases hj : j ∈ R
  · rw [if_pos hj]
  · rw [if_neg hj]
    dsimp only
    by_cases hiou : t ≤ calculateIoU (elemBox (elements.getD i default))
        (elemBox (elements.getD j default))
    · rw [if_pos hiou]; exact Finset.subset_insert _ _
    · rw [if_neg hiou]

/-- `dedupOuterStep` only grows the removal set. -/
lemma dedupOuterStep_subset (elements : List DetectedTextElement) (t : ℚ)
    (R : Finset ℕ) (i : ℕ) : R ⊆ dedupOuterStep elements t R i := by
  unfold dedupOuterStep
  by_cases hi : i ∈ R
  · rw [if_pos hi]
  · rw [if_neg hi]
    exact subset_foldl _ (dedupInnerStep_subset elements t i) _ R

/-- After the inner step on a duplicate pair, one of the two indices is marked. -/
lemma dedupInnerStep_covers (elements : List DetectedTextElement) (t : ℚ)
    (i : ℕ) (R : Finset ℕ) (j : ℕ)
    (hiou : t ≤ calculateIoU (elemBox (elements.getD i default))
      (elemBox (elements.getD j default))) :
    i ∈ dedupInnerStep elements t i R j ∨ j ∈ dedupInnerStep elements t i R j := by
  unfold dedupInnerStep
  by_cases hj : j ∈ R
  · rw [if_pos hj]; exact Or.inr hj
  · rw [if_neg hj]
    dsimp only
    rw [if_pos hiou]
    by_cases hc : (elements.getD j default).confidence_score ≤
        (elements.getD i default).confidence_score
    · rw [if_pos hc]
      simp only [if_pos rfl]
      exact Or.inr (Finset.mem_insert_self j R)
    · rw [if_neg hc]
      by_cases hji : j = i
      · rw [if_pos hji]
        exact Or.inr (hji ▸ Finset.mem_insert_self j R)
      · rw [if_neg hji]
        exact Or.inl (Finset.mem_insert_self i R)

/-- After the inner fold visits a duplicate partner `j`, one of `i`, `j` is
marked in the final fold state. -/
lemma dedupInner_foldl_covers (elements : List DetectedTextElement) (t : ℚ)
    (i : ℕ) (js : List ℕ) (R : Finset ℕ) (j : ℕ) (hmem : j ∈ js)
    (hiou : t ≤ calculateIoU (elemBox (elements.getD i default))
      (elemBox (elements.getD j default))) :
    i ∈ js.foldl (dedupInnerStep elements t i) R ∨
    j ∈ js.foldl (dedupInnerStep elements t i) R := by
  induction js generalizing R with
  | nil => exact absurd hmem (List.not_mem_nil _)
  | cons k rest ih =>
    rcases List.mem_cons.mp hmem with rfl | htail
    · rcases dedupInnerStep_covers elements t i R j hiou with h | h
      · exact Or.inl (subset_foldl _ (dedupInnerStep_subset elements t i) rest _ h)
      · exact Or.inr (subset_foldl _ (dedupInnerStep_subset elements t i) rest _ h)
    · exact ih _ htail

/-- Key coverage property of the full removal set: any in-range duplicate pair
`i < j` has one of its two indices marked. -/
lemma dedupToRemove_covers (elements : List DetectedTextElement) (t : ℚ)
    (i j : ℕ) (hij : i < j) (hj : j < elements.length)
    (hiou : t ≤ calculateIoU (elemBox (elements.getD i default))
      (elemBox (elements.getD j default))) :
    i ∈ dedupToRemove elements t ∨ j ∈ dedupToRemove elements t := by
  unfold dedupToRemove
  have hsplit : List.range elements.length =
      (List.range' 0 i ++ List.range' i 1) ++
        List.range' (i + 1) (elements.length - (i + 1)) := by
    rw [List.range_eq_range']
    have h1 := List.range'_append 0 i 1 1
    have h2 := List.range'_append 0 (i + 1) (elements.length - (i + 1)) 1
    simp only [one_mul, Nat.zero_add] at h1 h2
    rw [h1, Nat.add_comm 1 i, h2]
    congr 1
    omega
  rw [hsplit, List.foldl_append, List.foldl_append]
  set R1 := (List.range' 0 i).foldl (dedupOuterStep elements t) ∅ with hR1
  have hfold1 : (List.range' i 1).foldl (dedupOuterStep elements t) R1 =
      dedupOuterStep elements t R1 i := by
    simp [List.range']
  rw [hfold1]
  by_cases hiR1 : i ∈ R1
  · have hstep : dedupOuterStep elements t R1 i = R1 := by
      unfold dedupOuterStep; rw [if_pos hiR1]
    rw [hstep]
    exact Or.inl (subset_foldl _ (dedupOuterStep_subset elements t) _ _ hiR1)
  · have hstep : dedupOuterStep elements t R1 i =
        (List.range' (i + 1) (elements.length - (i + 1))).foldl
          (dedupInnerStep elements t i) R1 := by
      unfold dedupOuterStep; rw [if_neg hiR1]
    rw [hstep]
    have hjmem : j ∈ List.range' (i + 1) (elements.length - (i + 1)) := by
      rw [List.mem_range'_1]
      omega
    rcases dedupInner_foldl_covers elements t i _ R1 j hjmem hiou with h | h
    · exact Or.inl (subset_foldl _ (dedupOuterStep_subset elements t) _ _ h)
    · exact Or.inr (subset_foldl _ (dedupOuterStep_subset elements t) _ _ h)

/-- `enum` is strictly increasing in its indices. -/
lemma enum_pairwise_fst_lt {α : Type} (l : List α) :
    l.enum.Pairwise (fun p q => p.1 < q.1) := by
  rw [List.pairwise_iff_get]
  intro a b hab
  rw [List.get_eq_getElem, List.get_eq_getElem, List.getElem_enum, List.getElem_enum]
  simpa using hab

/-- Membership in `enum` determines the element from the index. -/
lemma enum_mem_getD {α : Type} [Inhabited α] (l : List α) (p : ℕ × α)
    (hp : p ∈ l.enum) : l.getD p.1 default = p.2 := by
  have h := List.mem_enum_iff_getElem?.mp hp
  simp [List.getD, List.get?_eq_getElem?, h]

end DedupFacts

/-- Claim C4: after `filterOverlappingDetections` at threshold `t`, no two
surviving elements have IoU at or above `t`, and the survivors keep their
original input order (the output is a sublist of the input). -/
theorem filterOverlappingDetections_dedup (elements : List DetectedTextElement)
    (t : ℚ) :
    (filterOverlappingDetections elements t).Pairwise
      (fun e1 e2 => calculateIoU (elemBox e1) (elemBox e2) < t)
    ∧ List.Sublist (filterOverlappingDetections elements t) elements := by
  constructor
  · unfold filterOverlappingDetections
    rw [List.pairwise_map]
    have h1 : (elements.enum.filter
        (fun p => p.1 ∉ dedupToRemove elements t)).Pairwise
        (fun p q => p.1 < q.1) :=
      (enum_pairwise_fst_lt elements).sublist (List.filter_sublist _)
    refine h1.imp_of_mem ?_
    intro p q hp hq hlt
    have hpr : p.1 ∉ dedupToRemove elements t := by
      have := (List.mem_filter.mp hp).2
      simpa using this
    have hqr : q.1 ∉ dedupToRemove elements t := by
      have := (List.mem_filter.mp hq).2
      simpa using this
    have hpe : p ∈ elements.enum := (List.mem_filter.mp hp).1
    have hqe : q ∈ elements.enum := (List.mem_filter.mp hq).1
    have hq_len : q.1 < elements.length := by
      have h := List.mem_enum_iff_getElem?.mp hqe
      exact (List.getElem?_eq_some.mp h).1
    by_contra hge
    push_neg at hge
    have := dedupToRemove_covers elements t p.1 q.1 hlt hq_len
      (by rw [enum_mem_getD elements p hpe, enum_mem_getD elements q hqe]; exact hge)
    rcases this with h | h
    · exact hpr h
    · exact hqr h
  · unfold filterOverlappingDetections
    have h := (List.filter_sublist
      (p := fun p => decide (p.1 ∉ dedupToRemove elements t)) elements.enum).map
      Prod.snd
    rwa [List.enum_map_snd] at h

/-- Spec example box 1: (0,0,100,100), confidence 80. -/
def specBox1 : DetectedTextElement :=
  ⟨"n1", 0, 0, 100, 100, "Arial", 12, "000000", false, false, false, "left", 80⟩

/-- Spec example box 2: (5,5,95,95), confidence 90. -/
def specBox2 : DetectedTextElement :=
  ⟨"n2", 5, 5, 95, 95, "Arial", 12, "000000", false, false, false, "left", 90⟩

/-- A smaller-area but higher-confidence box. -/
def dupSmallHigh : DetectedTextElement :=
  ⟨"small", 0, 0, 100, 80, "Arial", 12, "000000", false, false, false, "left", 90⟩

/-- A larger-area but lower-confidence box heavily overlapping `dupSmallHigh`. -/
def dupBigLow : DetectedTextElement :=
  ⟨"big", 0, 0, 100, 100, "Arial", 12, "000000", false, false, false, "left", 50⟩

/-- Counterexample to C5 as stated: `filterOverlappingDetections` keeps the
SMALLER-area box when it has the higher confidence — the removal choice is by
confidence alone, not by area.  Here the pair exceeds the 0.7 threshold
(IoU = 0.8), the first box has the smaller area, yet the first box survives
(the claim predicts the smaller-area box is removed, i.e. output
`[dupBigLow]`). -/
theorem dedup_keeps_smaller_area_box :
    filterOverlappingDetections [dupSmallHigh, dupBigLow] (7/10) = [dupSmallHigh]
    ∧ dupSmallHigh.width * dupSmallHigh.height <
        dupBigLow.width * dupBigLow.height
    ∧ 7/10 ≤ calculateIoU (elemBox dupSmallHigh) (elemBox dupBigLow) := by
  have hiou : calculateIoU (elemBox dupSmallHigh) (elemBox dupBigLow) = 4/5 := by
    norm_num [calculateIoU, elemBox, dupSmallHigh, dupBigLow, min_def, max_def]
  refine ⟨?_, by norm_num [dupSmallHigh, dupBigLow], by rw [hiou]; norm_num⟩
  have hc1 : dupSmallHigh.confidence_score = 90 := rfl
  have hc2 : dupBigLow.confidence_score = 50 := rfl
  have hset : dedupToRemove [dupSmallHigh, dupBigLow] (7/10) = {1} := by
    norm_num [dedupToRemove, dedupOuterStep, dedupInnerStep, List.range_succ,
      List.range', hiou, hc1, hc2, List.getD_cons_zero, List.getD_cons_succ,
      Finset.not_mem_empty, Finset.mem_insert, Finset.mem_singleton]
  norm_num [filterOverlappingDetections, hset, List.enum, List.enumFrom,
    List.filter, Finset.mem_insert, Finset.mem_singleton]

/-- Claim C5 (amended): in `filterOverlappingDetections` the removal choice on
a duplicate pair is by confidence — the lower-confidence element is removed
(the earlier element is kept on ties) regardless of area; in
`deduplicateRegions` the choice is by area — the smaller-area region is
removed (the earlier region is kept on ties) regardless of confidence.  The
spec's concrete 0.7-threshold example does hold: dedup on
[(0,0,100,100,conf 80), (5,5,95,95,conf 90)] leaves exactly the second
(higher-confidence) box. -/
theorem dedup_removal_rules (elements : List DetectedTextElement)
    (regions : List LayoutRegion) (t : ℚ) (i j : ℕ) (R : Finset ℕ)
    (hj : j ∉ R) (hij : i ≠ j) :
    (t ≤ calculateIoU (elemBox (elements.getD i default))
        (elemBox (elements.getD j default)) →
      dedupInnerStep elements t i R j =
        insert (if (elements.getD j default).confidence_score ≤
            (elements.getD i default).confidence_score then j else i) R)
    ∧ (0.7 < calculateRegionIoU (regions.getD i default) (regions.getD j default) →
        regionDedupInnerStep regions i R j =
          insert (if (regions.getD j default).width *
              (regions.getD j default).height ≤
              (regions.getD i default).width * (regions.getD i default).height
            then j else i) R)
    ∧ filterOverlappingDetections [specBox1, specBox2] (7/10) = [specBox2] := by
  refine ⟨?_, ?_, ?_⟩
  · intro hiou
    unfold dedupInnerStep
    rw [if_neg hj]
    dsimp only
    rw [if_pos hiou]
    by_cases hc : (elements.getD j default).confidence_score ≤
        (elements.getD i default).confidence_score
    · rw [if_pos hc, if_pos hc, if_pos (rfl : i = i)]
    · rw [if_neg hc, if_neg hc, if_neg (Ne.symm hij)]
  · intro hiou
    unfold regionDedupInnerStep
    rw [if_neg hj]
    dsimp only
    rw [if_pos hiou]
    by_cases hc : (regions.getD j default).width * (regions.getD j default).height ≤
        (regions.getD i default).width * (regions.getD i default).height
    · rw [if_pos hc, if_pos hc, if_pos (rfl : i = i)]
    · rw [if_neg hc, if_neg hc, if_neg (Ne.symm hij)]
  · have hiou : calculateIoU (elemBox specBox1) (elemBox specBox2) = 361/400 := by
      norm_num [calculateIoU, elemBox, specBox1, specBox2, min_def, max_def]
    have hc1 : specBox1.confidence_score = 80 := rfl
    have hc2 : specBox2.confidence_score = 90 := rfl
    have hset : dedupToRemove [specBox1, specBox2] (7/10) = {0} := by
      norm_num [dedupToRemove, dedupOuterStep, dedupInnerStep, List.range_succ,
        List.range', hiou, hc1, hc2, List.getD_cons_zero, List.getD_cons_succ,
        Finset.not_mem_empty, Finset.mem_insert, Finset.mem_singleton]
    norm_num [filterOverlappingDetections, hset, List.enum, List.enumFrom,
      List.filter, Finset.mem_insert, Finset.mem_singleton]

/-- Witness for C5 (amended): on the concrete duplicate pair, the inner dedup
step marks index 0 — the lower-confidence element — for removal. -/
theorem dedup_removal_rules_witness :
    dedupInnerStep [specBox1, specBox2] (7/10) 0 ∅ 1 = {0} := by
  have h := (dedup_removal_rules [specBox1, specBox2] [] (7/10) 0 1 ∅
    (Finset.not_mem_empty 1) (by norm_num)).1
    (by norm_num [calculateIoU, elemBox, specBox1, specBox2, min_def, max_def,
      List.getD_cons_zero, List.getD_cons_succ])
  rw [h]
  norm_num [specBox1, specBox2, List.getD_cons_zero, List.getD_cons_succ]

/-! ### Region containment normalizer (layout-placement.ts) -/

/-- Canvas-space left edge of a region: `(region.x / 1920) * SLIDE_WIDTH`. -/
def regionXInches (region : LayoutRegion) : ℚ := region.x / 1920 * 10

/-- Canvas-space top edge of a region: `(region.y / 1080) * SLIDE_HEIGHT`. -/
def regionYInches (region : LayoutRegion) : ℚ := region.y / 1080 * 5.625

/-- Canvas-space width of a region. -/
def regionWidthInches (region : LayoutRegion) : ℚ := region.width / 1920 * 10

/-- Canvas-space height of a region. -/
def regionHeightInches (region : LayoutRegion) : ℚ := region.height / 1080 * 5.625

/-- The center-containment test of layout-placement.ts `findContainingRegion`:
the element's center point lies in the region's canvas-space rectangle, all
four comparisons inclusive. -/
def centerContained (element : DetectedTextElement) (region : LayoutRegion) : Prop :=
  regionXInches region ≤ element.position_x + element.width / 2 ∧
  element.position_x + element.width / 2 ≤
    regionXInches region + regionWidthInches region ∧
  regionYInches region ≤ element.position_y + element.height / 2 ∧
  element.position_y + element.height / 2 ≤
    regionYInches region + regionHeightInches region

instance (element : DetectedTextElement) (region : LayoutRegion) :
    Decidable (centerContained element region) := by
  unfold centerContained; infer_instance

/-- layout-placement.ts `findContainingRegion`: the first region in list order
whose canvas-space rectangle contains the element's center point. -/
def findContainingRegion (element : DetectedTextElement) :
    List LayoutRegion → Option LayoutRegion
  | [] => none
  | region :: rest =>
    if centerContained element region then some region
    else findContainingRegion element rest

/-- layout-placement.ts `normalizeWithinRegion`: clamp the element's origin
into the region, shrink the extent to the remaining room, and floor the extent
at 0.1. -/
def normalizeWithinRegion (element : DetectedTextElement) (region : LayoutRegion) :
    DetectedTextElement :=
  let clampedX := max (regionXInches region)
    (min element.position_x
      (regionXInches region + regionWidthInches region - element.width))
  let clampedY := max (regionYInches region)
    (min element.position_y
      (regionYInches region + regionHeightInches region - element.height))
  let clampedWidth := min element.width
    (regionWidthInches region - (clampedX - regionXInches region))
  let clampedHeight := min element.height
    (regionHeightInches region - (clampedY - regionYInches region))
  { element with
    position_x := clampedX
    position_y := clampedY
    width := max 0.1 clampedWidth
    height := max 0.1 clampedHeight }

/-- layout-placement.ts `normalizeCoordinates`: normalize each element within
its containing region; elements with no containing region pass through
unchanged (absolute positioning). -/
def normalizeCoordinates (textElements : List DetectedTextElement)
    (regions : List LayoutRegion) : List DetectedTextElement :=
  textElements.map (fun element =>
    match findContainingRegion element regions with
    | some containingRegion => normalizeWithinRegion element containingRegion
    | none => element)

/-- The per-element body of layout-placement.ts `alignElementsWithinRegions`:
snap edges lying within a 0.05-unit margin of the region border (edge
distances are measured against the original element fields, as in the
source). -/
def alignWithinRegion (element : DetectedTextElement) (region : LayoutRegion) :
    DetectedTextElement :=
  let relativeX := element.position_x - regionXInches region
  let relativeY := element.position_y - regionYInches region
  let a1 := if relativeX < 0.05 then
      { element with position_x := regionXInches region + 0.05 } else element
  let a2 := if relativeY < 0.05 then
      { a1 with position_y := regionYInches region + 0.05 } else a1
  let rightEdgeDistance := (regionXInches region + regionWidthInches region) -
      (element.position_x + element.width)
  let a3 := if rightEdgeDistance < 0.05 ∧ 0 < rightEdgeDistance then
      { a2 with position_x := regionXInches region + regionWidthInches region -
          element.width - 0.05 } else a2
  let bottomEdgeDistance := (regionYInches region + regionHeightInches region) -
      (element.position_y + element.height)
  if bottomEdgeDistance < 0.05 ∧ 0 < bottomEdgeDistance then
      { a3 with position_y := regionYInches region + regionHeightInches region -
          element.height - 0.05 } else a3

/-- layout-placement.ts `alignElementsWithinRegions`: align each element inside
its containing region; elements with no containing region pass through
unchanged. -/
def alignElementsWithinRegions (textElements : List DetectedTextElement)
    (regions : List LayoutRegion) : List DetectedTextElement :=
  textElements.map (fun element =>
    match findContainingRegion element regions with
    | none => element
    | some region => alignWithinRegion element region)

section PlacementFacts

/-- One axis of `normalizeWithinRegion`: the clamped origin is at or after the
region edge, the extent keeps the minimum `m`, and origin + extent stays
within the region whenever both the element extent and the region extent are
at least `m`. -/
lemma normalize_axis_facts (p w rX rW m : ℚ) (hw : m ≤ w) (hrW : m ≤ rW) :
    rX ≤ max rX (min p (rX + rW - w))
    ∧ m ≤ max m (min w (rW - (max rX (min p (rX + rW - w)) - rX)))
    ∧ max rX (min p (rX + rW - w)) +
        max m (min w (rW - (max rX (min p (rX + rW - w)) - rX))) ≤ rX + rW := by
  refine ⟨le_max_left _ _, le_max_left _ _, ?_⟩
  rcases le_total w rW with hcase | hcase
  · have hcX : max rX (min p (rX + rW - w)) ≤ rX + rW - w :=
      max_le (by linarith) (min_le_right _ _)
    have h1 : w ≤ rW - (max rX (min p (rX + rW - w)) - rX) := by linarith
    rw [min_eq_left h1, max_eq_right hw]
    linarith
  · have hcX : max rX (min p (rX + rW - w)) = rX := by
      rw [max_eq_left]
      exact le_trans (min_le_right _ _) (by linarith)
    rw [hcX]
    have h1 : min w (rW - (rX - rX)) = rW := by
      rw [show rW - (rX - rX) = rW by ring, min_eq_right hcase]
    rw [h1, max_eq_right hrW]

end PlacementFacts

/-- Claim C8 (amended): when the normalizer assigns a containing region and
the element's extents and the region's canvas-space extents are all at least
the 0.1-unit minimum, the normalized geometry lies fully inside the region's
canvas-space rectangle.  The normalized width and height are always at least
0.1 — never negative — but without the size hypotheses the 0.1 floor can push
the element past the region's far edge. -/
theorem normalizeWithinRegion_contained (element : DetectedTextElement)
    (regions : List LayoutRegion) (region : LayoutRegion)
    (hfind : findContainingRegion element regions = some region)
    (hew : 0.1 ≤ element.width) (heh : 0.1 ≤ element.height)
    (hrw : 0.1 ≤ regionWidthInches region) (hrh : 0.1 ≤ regionHeightInches region) :
    regionXInches region ≤ (normalizeWithinRegion element region).position_x
    ∧ (normalizeWithinRegion element region).position_x +
        (normalizeWithinRegion element region).width ≤
        regionXInches region + regionWidthInches region
    ∧ regionYInches region ≤ (normalizeWithinRegion element region).position_y
    ∧ (normalizeWithinRegion element region).position_y +
        (normalizeWithinRegion element region).height ≤
        regionYInches region + regionHeightInches region
    ∧ 0.1 ≤ (normalizeWithinRegion element region).width
    ∧ 0.1 ≤ (normalizeWithinRegion element region).height
    ∧ normalizeCoordinates [element] regions =
        [normalizeWithinRegion element region] := by
  obtain ⟨hx1, hx2, hx3⟩ := normalize_axis_facts element.position_x element.width
    (regionXInches region) (regionWidthInches region) 0.1 hew hrw
  obtain ⟨hy1, hy2, hy3⟩ := normalize_axis_facts element.position_y element.height
    (regionYInches region) (regionHeightInches region) 0.1 heh hrh
  refine ⟨hx1, hx3, hy1, hy3, hx2, hy2, ?_⟩
  simp [normalizeCoordinates, hfind]

/-- A full-slide layout region (pixel-space 1920×1080). -/
def regionFull : LayoutRegion :=
  ⟨"text_box", 0, 0, 1920, 1080, 95, true, none, none, "rectangle"⟩

/-- A small layout region in the top-left corner. -/
def smallRegion : LayoutRegion :=
  ⟨"shape", 0, 0, 100, 100, 90, true, none, none, "rectangle"⟩

/-- A tiny element close to the right canvas edge: width 0.04 at x = 9.97. -/
def tinyElement : DetectedTextElement :=
  ⟨"tiny", 997/100, 0, 1/25, 1, "Arial", 8, "000000", false, false, false,
    "left", 60⟩

/-- Witness for C8: the concrete element `sampleClaude` is assigned the
full-slide region and its normalized geometry stays inside it. -/
theorem normalizeWithinRegion_contained_witness :
    regionXInches regionFull ≤
      (normalizeWithinRegion sampleClaude regionFull).position_x
    ∧ (normalizeWithinRegion sampleClaude regionFull).position_x +
        (normalizeWithinRegion sampleClaude regionFull).width ≤
        regionXInches regionFull + regionWidthInches regionFull := by
  have h := normalizeWithinRegion_contained sampleClaude [regionFull] regionFull
    (by norm_num [findContainingRegion, centerContained, regionXInches,
      regionYInches, regionWidthInches, regionHeightInches, sampleClaude,
      regionFull])
    (by norm_num [sampleClaude]) (by norm_num [sampleClaude])
    (by norm_num [regionWidthInches, regionFull])
    (by norm_num [regionHeightInches, regionFull])
  exact ⟨h.1, h.2.1⟩

/-- Counterexample to C8 as stated: the element `tinyElement` (width 0.04) is
assigned the full-slide region, but normalization floors its width at 0.1 and
leaves `x + width = 10.06`, which lies outside the region's canvas rectangle
(right edge 10). -/
theorem normalizeWithinRegion_exceeds_region :
    findContainingRegion tinyElement [regionFull] = some regionFull
    ∧ (normalizeWithinRegion tinyElement regionFull).position_x +
        (normalizeWithinRegion tinyElement regionFull).width = 1006/100
    ∧ regionXInches regionFull + regionWidthInches regionFull = 10
    ∧ ¬((normalizeWithinRegion tinyElement regionFull).position_x +
        (normalizeWithinRegion tinyElement regionFull).width ≤
        regionXInches regionFull + regionWidthInches regionFull) := by
  have hfind : findContainingRegion tinyElement [regionFull] = some regionFull := by
    norm_num [findContainingRegion, centerContained, regionXInches, regionYInches,
      regionWidthInches, regionHeightInches, tinyElement, regionFull]
  have hval : (normalizeWithinRegion tinyElement regionFull).position_x +
      (normalizeWithinRegion tinyElement regionFull).width = 1006/100 := by
    norm_num [normalizeWithinRegion, regionXInches, regionYInches,
      regionWidthInches, regionHeightInches, tinyElement, regionFull,
      min_def, max_def]
  have hedge : regionXInches regionFull + regionWidthInches regionFull = 10 := by
    norm_num [regionXInches, regionWidthInches, regionFull]
  refine ⟨hfind, hval, hedge, ?_⟩
  rw [hval, hedge]
  norm_num

/-- Claim C10: `findContainingRegion` returns `none` exactly when no region
contains the element's center; a returned region is a containing region and is
the FIRST containing region in list order (so an element is never assigned
more than one region); boundary comparisons are inclusive — a center lying
exactly on a region's left edge (with the y-conditions met) is contained; and
an element with no containing region is returned unchanged by both
`normalizeCoordinates` and `alignElementsWithinRegions`. -/
theorem findContainingRegion_spec (element : DetectedTextElement)
    (regions : List LayoutRegion) :
    (findContainingRegion element regions = none ↔
      ∀ r ∈ regions, ¬ centerContained element r)
    ∧ (∀ r, findContainingRegion element regions = some r →
        centerContained element r ∧
        ∃ (i : ℕ) (hi : i < regions.length), regions.get ⟨i, hi⟩ = r ∧
          ∀ j (hj : j < regions.length), j < i →
            ¬ centerContained element (regions.get ⟨j, hj⟩))
    ∧ (∀ region : LayoutRegion, 0 ≤ region.width →
        element.position_x + element.width / 2 = regionXInches region →
        regionYInches region ≤ element.position_y + element.height / 2 →
        element.position_y + element.height / 2 ≤
          regionYInches region + regionHeightInches region →
        findContainingRegion element [region] = some region)
    ∧ (findContainingRegion element regions = none →
        normalizeCoordinates [element] regions = [element] ∧
        alignElementsWithinRegions [element] regions = [element]) := by
  refine ⟨?_, ?_, ?_, ?_⟩
  · induction regions with
    | nil => simp [findContainingRegion]
    | cons region rest ih =>
      rw [findContainingRegion]
      by_cases hc : centerContained element region
      · rw [if_pos hc]
        simp only [List.mem_cons]
        constructor
        · intro h; exact absurd h (by simp)
        · intro h; exact absurd hc (h region (Or.inl rfl))
      · rw [if_neg hc]
        rw [ih]
        constructor
        · intro h r hr
          rcases List.mem_cons.mp hr with rfl | hr2
          · exact hc
          · exact h r hr2
        · intro h r hr
          exact h r (List.mem_cons_of_mem _ hr)
  · induction regions with
    | nil => intro r h; exact absurd h (by simp [findContainingRegion])
    | cons region rest ih =>
      intro r h
      rw [findContainingRegion] at h
      by_cases hc : centerContained element region
      · rw [if_pos hc] at h
        obtain rfl := Option.some.inj h
        refine ⟨hc, 0, by simp, rfl, ?_⟩
        intro j hj hj0
        exact absurd hj0 (Nat.not_lt_zero j)
      · rw [if_neg hc] at h
        obtain ⟨hcr, i, hi, hget, hfirst⟩ := ih r h
        refine ⟨hcr, i + 1, by simpa using Nat.succ_lt_succ hi, by simpa using hget, ?_⟩
        intro j hj hji
        cases j with
        | zero => simpa using hc
        | succ k =>
          have hk : k < rest.length := by simpa using Nat.lt_of_succ_lt_succ hj
          have := hfirst k hk (Nat.lt_of_succ_lt_succ hji)
          simpa using this
  · intro region hwpos hxeq hy1 hy2
    rw [findContainingRegion]
    rw [if_pos]
    refine ⟨le_of_eq hxeq.symm, ?_, hy1, hy2⟩
    rw [hxeq]
    have : 0 ≤ regionWidthInches region := by
      unfold regionWidthInches
      positivity
    linarith
  · intro h
    constructor
    · simp [normalizeCoordinates, h]
    · simp [alignElementsWithinRegions, h]

/-- Witness for C10: the concrete far element has no containing region among
`[smallRegion]`, and passes through normalization and alignment unchanged. -/
theorem findContainingRegion_spec_witness :
    normalizeCoordinates [sampleFar] [smallRegion] = [sampleFar] ∧
    alignElementsWithinRegions [sampleFar] [smallRegion] = [sampleFar] :=
  (findContainingRegion_spec sampleFar [smallRegion]).2.2.2
    (by norm_num [findContainingRegion, centerContained, regionXInches,
      regionYInches, regionWidthInches, regionHeightInches, sampleFar,
      smallRegion])

/-! ### Detection strategy orchestrator, primary-detector modes
(hybrid-detector.ts, region-ocr.ts `performCraftPrimaryDetection`,
dbnet-primary-detector `performDBNetPrimaryDetection`).  The external
asynchronous calls — the geometry-only detector adapters, the box-grouping
heuristics, the per-box OCR service, and the content-aware fallback pipeline
`analyzeSlideImageWithLayoutDetection` — are passed in as data or function
parameters; wall-clock timing fields are omitted. -/

/-- detection-merger.ts `DetectionStats`. -/
structure DetectionStats where
  claudeCount : ℕ
  craftCount : ℕ
  mergedCount : ℕ
  overlapCount : ℕ
  claudeOnlyCount : ℕ
  craftOnlyCount : ℕ
deriving Repr, DecidableEq

/-- A detected table (src/types `DetectedTable`); the orchestrator code
modelled here only ever produces an empty table list. -/
structure DetectedTable where
  rows : ℕ
  columns : ℕ
deriving Repr, DecidableEq

/-- src/types `AIAnalysisResult`. -/
structure AIAnalysisResult where
  textElements : List DetectedTextElement
  tables : List DetectedTable
deriving Repr, DecidableEq

/-- The fields of the geometry-only detector adapters' results
(`CraftDetectionResult` / `DBNetDetectionResult`) that the orchestrator reads:
the box list and the optional error string.  On failure or timeout the
adapters return an empty box list with `error` set. -/
structure DetectorResult where
  boxes : List BoundingBox
  error : Option String
deriving Repr, DecidableEq

/-- region-ocr.ts `CraftPrimaryResult` (timings omitted). -/
structure CraftPrimaryResult where
  analysis : AIAnalysisResult
  craftBoxCount : ℕ
  ocrSuccessCount : ℕ
deriving Repr, DecidableEq

/-- `DBNetPrimaryResult` (timings omitted). -/
structure DBNetPrimaryResult where
  analysis : AIAnalysisResult
  dbnetBoxCount : ℕ
  ocrSuccessCount : ℕ
deriving Repr, DecidableEq

/-- Result of claude-vision.ts `analyzeSlideImageWithLayoutDetection` — the
content-aware detector's own region+OCR (Single-Source) pipeline — passed in
as data since it is an external network call. -/
structure LayoutAnalysisResult where
  analysis : AIAnalysisResult
  regions : List LayoutRegion
deriving Repr, DecidableEq

/-- hybrid-detector.ts `HybridDetectionResult` (timings omitted). -/
structure HybridDetectionResult where
  analysis : AIAnalysisResult
  regions : List LayoutRegion
  detectionStats : DetectionStats
deriving Repr, DecidableEq

/-- region-ocr.ts `performCraftPrimaryDetection`: bail out with
`craftBoxCount = 0` when the CRAFT adapter reports an error or no boxes;
otherwise group boxes into words and OCR each word box. -/
def performCraftPrimaryDetection (craftResult : DetectorResult)
    (mergeCharacterBoxesToWords : List BoundingBox → List BoundingBox)
    (performOCROnCraftRegions : List BoundingBox → List DetectedTextElement) :
    CraftPrimaryResult :=
  if craftResult.error ≠ none ∨ craftResult.boxes = [] then
    { analysis := { textElements := [], tables := [] },
      craftBoxCount := 0, ocrSuccessCount := 0 }
  else
    let wordBoxes := mergeCharacterBoxesToWords craftResult.boxes
    let textElements := performOCROnCraftRegions wordBoxes
    let ocrSuccessCount := (textElements.filter
      (fun el => el.content.trim != "")).length
    { analysis := { textElements := textElements, tables := [] },
      craftBoxCount := wordBoxes.length,
      ocrSuccessCount := ocrSuccessCount }

/-- `performDBNetPrimaryDetection`: same structure over the DBNet adapter. -/
def performDBNetPrimaryDetection (dbnetResult : DetectorResult)
    (mergeBoxesToLines : List BoundingBox → List BoundingBox)
    (performOCROnDBNetRegions : List BoundingBox → List DetectedTextElement) :
    DBNetPrimaryResult :=
  if dbnetResult.error ≠ none ∨ dbnetResult.boxes = [] then
    { analysis := { textElements := [], tables := [] },
      dbnetBoxCount := 0, ocrSuccessCount := 0 }
  else
    let lineBoxes := mergeBoxesToLines dbnetResult.boxes
    let textElements := performOCROnDBNetRegions lineBoxes
    let ocrSuccessCount := (textElements.filter
      (fun el => el.content.trim != "")).length
    { analysis := { textElements := textElements, tables := [] },
      dbnetBoxCount := lineBoxes.length,
      ocrSuccessCount := ocrSuccessCount }

/-- hybrid-detector.ts `performCraftPrimaryHybridDetection`: when the
CRAFT-primary pass produced no boxes, fall back to the content-aware
detector's own region+OCR pipeline and return its result. -/
def performCraftPrimaryHybridDetection (craftResult : DetectorResult)
    (mergeCharacterBoxesToWords : List BoundingBox → List BoundingBox)
    (performOCROnCraftRegions : List BoundingBox → List DetectedTextElement)
    (fallbackResult : LayoutAnalysisResult) : HybridDetectionResult :=
  let craftPrimaryResult := performCraftPrimaryDetection craftResult
    mergeCharacterBoxesToWords performOCROnCraftRegions
  if craftPrimaryResult.craftBoxCount = 0 then
    { analysis := fallbackResult.analysis
      regions := fallbackResult.regions
      detectionStats := {
        claudeCount := fallbackResult.analysis.textElements.length
        craftCount := 0
        mergedCount := fallbackResult.analysis.textElements.length
        overlapCount := 0
        claudeOnlyCount := fallbackResult.analysis.textElements.length
        craftOnlyCount := 0 } }
  else
    { analysis := craftPrimaryResult.analysis
      regions := []
      detectionStats := {
        claudeCount := 0
        craftCount := craftPrimaryResult.craftBoxCount
        mergedCount := craftPrimaryResult.analysis.textElements.length
        overlapCount := craftPrimaryResult.ocrSuccessCount
        claudeOnlyCount := 0
        craftOnlyCount := craftPrimaryResult.craftBoxCount -
          craftPrimaryResult.ocrSuccessCount } }

/-- hybrid-detector.ts `performDBNetPrimaryHybridDetection`: the DBNet-primary
variant of the same fallback. -/
def performDBNetPrimaryHybridDetection (dbnetResult : DetectorResult)
    (mergeBoxesToLines : List BoundingBox → List BoundingBox)
    (performOCROnDBNetRegions : List BoundingBox → List DetectedTextElement)
    (fallbackResult : LayoutAnalysisResult) : HybridDetectionResult :=
  let dbnetPrimaryResult := performDBNetPrimaryDetection dbnetResult
    mergeBoxesToLines performOCROnDBNetRegions
  if dbnetPrimaryResult.dbnetBoxCount = 0 then
    { analysis := fallbackResult.analysis
      regions := fallbackResult.regions
      detectionStats := {
        claudeCount := fallbackResult.analysis.textElements.length
        craftCount := 0
        mergedCount := fallbackResult.analysis.textElements.length
        overlapCount := 0
        claudeOnlyCount := fallbackResult.analysis.textElements.length
        craftOnlyCount := 0 } }
  else
    { analysis := dbnetPrimaryResult.analysis
      regions := []
      detectionStats := {
        claudeCount := 0
        craftCount := dbnetPrimaryResult.dbnetBoxCount
        mergedCount := dbnetPrimaryResult.analysis.textElements.length
        overlapCount := dbnetPrimaryResult.ocrSuccessCount
        claudeOnlyCount := 0
        craftOnlyCount := dbnetPrimaryResult.dbnetBoxCount -
          dbnetPrimaryResult.ocrSuccessCount } }

/-- Claim C9: in primary-detector mode (both the CRAFT-primary and the
DBNet-primary variants), whenever the geometry-only detector reports zero
boxes or an error/timeout, the orchestrator falls back to Single-Source mode:
it returns the content-aware detector's own region+OCR pipeline result (its
analysis and its regions), not an empty element list. -/
theorem primary_mode_fallback (craftResult dbnetResult : DetectorResult)
    (mw ml : List BoundingBox → List BoundingBox)
    (ocr1 ocr2 : List BoundingBox → List DetectedTextElement)
    (fb1 fb2 : LayoutAnalysisResult)
    (hc : craftResult.boxes = [] ∨ craftResult.error ≠ none)
    (hd : dbnetResult.boxes = [] ∨ dbnetResult.error ≠ none) :
    (performCraftPrimaryHybridDetection craftResult mw ocr1 fb1).analysis =
        fb1.analysis
    ∧ (performCraftPrimaryHybridDetection craftResult mw ocr1 fb1).regions =
        fb1.regions
    ∧ (performDBNetPrimaryHybridDetection dbnetResult ml ocr2 fb2).analysis =
        fb2.analysis
    ∧ (performDBNetPrimaryHybridDetection dbnetResult ml ocr2 fb2).regions =
        fb2.regions := by
  have h1 : performCraftPrimaryDetection craftResult mw ocr1 =
      { analysis := { textElements := [], tables := [] },
        craftBoxCount := 0, ocrSuccessCount := 0 } := by
    unfold performCraftPrimaryDetection
    rw [if_pos (Or.symm hc)]
  have h2 : performDBNetPrimaryDetection dbnetResult ml ocr2 =
      { analysis := { textElements := [], tables := [] },
        dbnetBoxCount := 0, ocrSuccessCount := 0 } := by
    unfold performDBNetPrimaryDetection
    rw [if_pos (Or.symm hd)]
  constructor
  · simp [performCraftPrimaryHybridDetection, h1]
  constructor
  · simp [performCraftPrimaryHybridDetection, h1]
  constructor
  · simp [performDBNetPrimaryHybridDetection, h2]
  · simp [performDBNetPrimaryHybridDetection, h2]

/-- Witness for C9: a CRAFT adapter returning no boxes and a DBNet adapter
returning an error both route the orchestrator to the fallback result. -/
theorem primary_mode_fallback_witness :
    (performCraftPrimaryHybridDetection ⟨[], none⟩ id (fun _ => [])
        ⟨⟨[sampleClaude], []⟩, [regionFull]⟩).analysis = ⟨[sampleClaude], []⟩
    ∧ (performDBNetPrimaryHybridDetection ⟨[⟨0, 0, 1, 1⟩], some "timeout"⟩ id
        (fun _ => []) ⟨⟨[sampleClaude], []⟩, [regionFull]⟩).regions =
        [regionFull] := by
  obtain ⟨h1, h2, h3, h4⟩ := primary_mode_fallback ⟨[], none⟩
    ⟨[⟨0, 0, 1, 1⟩], some "timeout"⟩ id id (fun _ => []) (fun _ => [])
    ⟨⟨[sampleClaude], []⟩, [regionFull]⟩ ⟨⟨[sampleClaude], []⟩, [regionFull]⟩
    (Or.inl rfl) (Or.inr (by simp))
  exact ⟨h1, h4⟩

end PowerPointOCR
